import Mathlib

/-!
Verification of the shader-composition core in `src/shaders/SkComposeShader.cpp`:
the `MakeBlend` / `MakeLerp` construction-time simplifiers, the raster-pipeline
stage-append protocol (`append_shader_or_paint`, `append_two_shaders`, the two
combinators' `onAppendStages`), the serialization codec (`flatten` /
`CreateProc`), and the GPU lowering (`asFragmentProcessor`).

Modelling conventions:
  - `Shader` models a possibly-null `sk_sp<SkShader>`; the constructor
    `Shader.null` is the null pointer, which in the source doubles as the
    "absent"/failure result.  Values of the inductive stand for heap objects;
    equality of values models pointer identity (`sk_sp::operator==`).
  - `Shader.leaf id` is an abstract externally-implemented shader object
    (gradient, image, ...); `Shader.color c` is an `SkColorShader` holding the
    32-bit ARGB color `c` (modelled from the spec: `SkColorShader` itself is an
    external collaborator).
  - Floats (`SkScalar`) are modelled as `SkScalar`: NaN, the two infinities,
    or an exact rational; the IEEE comparison semantics used by the source
    (every comparison with NaN is false) is reproduced by `le0` / `ge1`.
  - The raster pipeline is modelled as the list of stages a shader appends,
    together with an arena counter handing out distinct scratch-slot
    identifiers; a stage list is executed by `runStages` over a machine state
    of current registers r,g,b,a (`cur`), secondary registers dr,dg,db,da
    (`dr`) and scratch memory (`mem`).  The blend-operator stage expansion
    `SkBlendMode_AppendStages` and an external leaf shader's own stage
    sequence are opaque single tokens whose execution semantics is a
    parameter (`B` for the blend-mode table, `env` for leaf outputs).
  - The read/write buffer (`SkReadBuffer` / `SkWriteBuffer`, external
    collaborators) is modelled from the spec as a token stream plus a
    validity flag: `writeFlattenable` emits one (possibly-null) shader token,
    `write32` a nonnegative integer token, `writeScalar` a scalar token;
    reads pop the matching token or trip the validity flag.
-/

/-- SkBlendMode: the fixed enumeration of blend operators, in the order of its
declaration in the Skia headers, so that `toNat` gives the on-the-wire value
written by `write32((int)fMode)`. -/
inductive SkBlendMode where
  | kClear | kSrc | kDst | kSrcOver | kDstOver | kSrcIn | kDstIn | kSrcOut | kDstOut
  | kSrcATop | kDstATop | kXor | kPlus | kModulate | kScreen
  | kOverlay | kDarken | kLighten | kColorDodge | kColorBurn | kHardLight | kSoftLight
  | kDifference | kExclusion | kMultiply
  | kHue | kSaturation | kColor | kLuminosity
deriving DecidableEq

/-- Numeric value of a blend mode (the C enum value). -/
def SkBlendMode.toNat : SkBlendMode → Nat
  | .kClear => 0 | .kSrc => 1 | .kDst => 2 | .kSrcOver => 3 | .kDstOver => 4
  | .kSrcIn => 5 | .kDstIn => 6 | .kSrcOut => 7 | .kDstOut => 8 | .kSrcATop => 9
  | .kDstATop => 10 | .kXor => 11 | .kPlus => 12 | .kModulate => 13 | .kScreen => 14
  | .kOverlay => 15 | .kDarken => 16 | .kLighten => 17 | .kColorDodge => 18
  | .kColorBurn => 19 | .kHardLight => 20 | .kSoftLight => 21 | .kDifference => 22
  | .kExclusion => 23 | .kMultiply => 24 | .kHue => 25 | .kSaturation => 26
  | .kColor => 27 | .kLuminosity => 28

/-- kLastMode = kLuminosity, the largest valid enumeration value. -/
def SkBlendMode.kLastMode : SkBlendMode := .kLuminosity

/-- The C cast `static_cast<SkBlendMode>(n)` for `n` in the valid range; the
decoder only performs it after validating `n ≤ kLastMode`, so the value chosen
for out-of-range `n` is never reached. -/
def SkBlendMode.fromNat : Nat → SkBlendMode
  | 0 => .kClear | 1 => .kSrc | 2 => .kDst | 3 => .kSrcOver | 4 => .kDstOver
  | 5 => .kSrcIn | 6 => .kDstIn | 7 => .kSrcOut | 8 => .kDstOut | 9 => .kSrcATop
  | 10 => .kDstATop | 11 => .kXor | 12 => .kPlus | 13 => .kModulate | 14 => .kScreen
  | 15 => .kOverlay | 16 => .kDarken | 17 => .kLighten | 18 => .kColorDodge
  | 19 => .kColorBurn | 20 => .kHardLight | 21 => .kSoftLight | 22 => .kDifference
  | 23 => .kExclusion | 24 => .kMultiply | 25 => .kHue | 26 => .kSaturation
  | 27 => .kColor | 28 => .kLuminosity
  | _ => .kClear

/-- SkScalar (a 32-bit IEEE float) modelled as NaN, an infinity, or an exact
rational value. -/
inductive SkScalar where
  | nan
  | posInf
  | negInf
  | val (q : ℚ)
deriving DecidableEq

/-- SkScalarIsNaN. -/
def SkScalar.isNaN : SkScalar → Bool
  | .nan => true
  | _ => false

/-- The IEEE comparison `weight <= 0` (false on NaN). -/
def SkScalar.le0 : SkScalar → Bool
  | .nan => false
  | .posInf => false
  | .negInf => true
  | .val q => decide (q ≤ 0)

/-- The IEEE comparison `weight >= 1` (false on NaN). -/
def SkScalar.ge1 : SkScalar → Bool
  | .nan => false
  | .posInf => true
  | .negInf => false
  | .val q => decide (1 ≤ q)

/-- Whether the scalar is a finite number. -/
def SkScalar.isFinite : SkScalar → Bool
  | .val _ => true
  | _ => false

/-- The rational value of a finite scalar (0 for NaN/infinities, which the
combinator invariants exclude from ever being stored). -/
def SkScalar.toQ : SkScalar → ℚ
  | .val q => q
  | _ => 0

/-- A possibly-null `sk_sp<SkShader>`.  `null` is the null pointer; `leaf` an
abstract external shader object identified by `id`; `color` an SkColorShader;
`blend` an `SkShader_Blend` holding `fMode`, `fDst`, `fSrc`; `lerp` an
`SkShader_Lerp` holding `fWeight`, `fDst`, `fSrc`.  Equality of values models
pointer identity. -/
inductive Shader where
  | null
  | color (c : Nat)
  | leaf (id : Nat)
  | blend (mode : SkBlendMode) (dst src : Shader)
  | lerp (w : SkScalar) (dst src : Shader)
deriving DecidableEq

/-- SkShader::MakeBlend from the source:
clear returns `MakeColorShader(0)`, kDst returns `dst`, kSrc returns `src`,
any other mode allocates an `SkShader_Blend`. -/
def SkShader.MakeBlend (mode : SkBlendMode) (dst src : Shader) : Shader :=
  match mode with
  | .kClear => .color 0
  | .kDst => dst
  | .kSrc => src
  | _ => .blend mode dst src

/-- SkShader::MakeLerp from the source: NaN weight returns null; identical
(pointer-equal) children are returned unchanged; `weight <= 0` returns `dst`,
`weight >= 1` returns `src`; otherwise an `SkShader_Lerp` is allocated. -/
def SkShader.MakeLerp (weight : SkScalar) (dst src : Shader) : Shader :=
  if weight.isNaN then .null
  else if dst = src then dst
  else if weight.le0 then dst
  else if weight.ge1 then src
  else .lerp weight dst src

/-- One premultiplied RGBA color, each channel an exact rational. -/
structure RGBA where
  r : ℚ
  g : ℚ
  b : ℚ
  a : ℚ
deriving DecidableEq

/-- Premultiplied color of an SkColorShader holding the 32-bit ARGB color `c`
(modelled from the spec: SkColorShader is external; `MakeColorShader 0` is the
constant fully-transparent-black procedure). -/
def premulColor (c : Nat) : RGBA :=
  let af : ℚ := (((c >>> 24) &&& 255 : Nat) : ℚ) / 255
  ⟨(((c >>> 16) &&& 255 : Nat) : ℚ) / 255 * af,
   (((c >>> 8) &&& 255 : Nat) : ℚ) / 255 * af,
   ((c &&& 255 : Nat) : ℚ) / 255 * af,
   af⟩

/-- The fully transparent black color. -/
def RGBA.transparentBlack : RGBA := ⟨0, 0, 0, 0⟩

/-- Componentwise `d + t * (s - d)`, the math of the `lerp_1_float` stage. -/
def lerpColor (t : ℚ) (d s : RGBA) : RGBA :=
  ⟨d.r + t * (s.r - d.r), d.g + t * (s.g - d.g),
   d.b + t * (s.b - d.b), d.a + t * (s.a - d.a)⟩

/-- One appended raster-pipeline stage.  `constant_color` is
`append_constant_color` with the paint's premultiplied color;
`shader_stages id` stands for the whole (opaque) stage sequence an external
leaf shader appends; `color_stage` is SkColorShader's own append;
`store_src` / `load_dst` move the current registers to/from scratch slot
`ptr`; `blend_stages` is the opaque `SkBlendMode_AppendStages` expansion;
`lerp_1_float` is `SkRasterPipeline::lerp_1_float` on the stored weight. -/
inductive Stage where
  | constant_color (c : RGBA)
  | shader_stages (id : Nat)
  | color_stage (c : Nat)
  | store_src (ptr : Nat)
  | load_dst (ptr : Nat)
  | blend_stages (mode : SkBlendMode)
  | lerp_1_float (w : SkScalar)
deriving DecidableEq

/-- Result of one stage-append call: the stages appended to the pipeline (also
on failure, since the C++ code appends into a shared pipeline before it can
fail), the arena counter after the call, and the returned success flag. -/
structure AppendOut where
  stages : List Stage
  alloc : Nat
  success : Bool
deriving DecidableEq

/-- Result of `append_two_shaders`: appended stages, arena counter, and the
returned `fRes0` scratch-slot handle (`none` models the null return). -/
structure TwoOut where
  stages : List Stage
  alloc : Nat
  res0 : Option Nat
deriving DecidableEq

mutual

/-- append_shader_or_paint from the source: a present shader delegates to its
`appendStages`; a null shader appends one constant-color stage carrying the
paint's premultiplied color and always succeeds.  `ok` tells which external
leaf shaders succeed in appending their stages. -/
def append_shader_or_paint (ok : Nat → Bool) (paint : RGBA) (shader : Shader) (a : Nat) :
    AppendOut :=
  if shader = .null then ⟨[.constant_color paint], a, true⟩
  else Shader.appendStages ok paint shader a
termination_by (sizeOf shader, 1)
decreasing_by omega

/-- append_two_shaders from the source: reserve one scratch `Storage` slot in
the arena, append `s0` (propagating failure), append `store_src` into the
slot, append `s1` (propagating failure), and return the slot handle. -/
def append_two_shaders (ok : Nat → Bool) (paint : RGBA) (s0 s1 : Shader) (a : Nat) :
    TwoOut :=
  let ptr := a
  let o0 := append_shader_or_paint ok paint s0 (a + 1)
  if !o0.success then ⟨o0.stages, o0.alloc, none⟩
  else
    let o1 := append_shader_or_paint ok paint s1 o0.alloc
    if !o1.success then ⟨o0.stages ++ [.store_src ptr] ++ o1.stages, o1.alloc, none⟩
    else ⟨o0.stages ++ [.store_src ptr] ++ o1.stages, o1.alloc, some ptr⟩
termination_by (sizeOf s0 + sizeOf s1, 2)
decreasing_by
  · have h1 : 1 ≤ sizeOf s1 := by cases s1 <;> simp <;> omega
    omega
  · have h0 : 1 ≤ sizeOf s0 := by cases s0 <;> simp <;> omega
    omega

/-- The polymorphic `appendStages` dispatch.  The `blend` and `lerp` arms are
`SkShader_Blend::onAppendStages` and `SkShader_Lerp::onAppendStages` from the
source: call `append_two_shaders` on the two children, fail if it failed,
otherwise append `load_dst` on the returned slot followed by the mode's blend
stages (resp. the `lerp_1_float` stage).  External leaves (`leaf id`) append
their opaque stage token when `ok id`, and report failure (having appended
nothing) otherwise; `appendStages` is never reached with a null shader because
`append_shader_or_paint` guards it. -/
def Shader.appendStages (ok : Nat → Bool) (paint : RGBA) (shader : Shader) (a : Nat) :
    AppendOut :=
  match shader with
  | .null => ⟨[], a, false⟩
  | .color c => ⟨[.color_stage c], a, true⟩
  | .leaf id => if ok id then ⟨[.shader_stages id], a, true⟩ else ⟨[], a, false⟩
  | .blend m d s =>
      let h := append_two_shaders ok paint d s a
      match h.res0 with
      | none => ⟨h.stages, h.alloc, false⟩
      | some p => ⟨h.stages ++ [.load_dst p, .blend_stages m], h.alloc, true⟩
  | .lerp w d s =>
      let h := append_two_shaders ok paint d s a
      match h.res0 with
      | none => ⟨h.stages, h.alloc, false⟩
      | some p => ⟨h.stages ++ [.load_dst p, .lerp_1_float w], h.alloc, true⟩
termination_by (sizeOf shader, 0)
decreasing_by
  all_goals simp_wf
  all_goals omega

end

/-- Denotational per-pixel output of a shader: `B` interprets the external
blend-operator table (destination first, source second, matching the register
convention of `SkBlendMode_AppendStages`), `env` gives each external leaf
shader's output, `paint` is the ambient paint's premultiplied color used for a
null shader. -/
def Shader.eval (B : SkBlendMode → RGBA → RGBA → RGBA) (env : Nat → RGBA)
    (paint : RGBA) : Shader → RGBA
  | .null => paint
  | .color c => premulColor c
  | .leaf id => env id
  | .blend m d s => B m (d.eval B env paint) (s.eval B env paint)
  | .lerp w d s => lerpColor w.toQ (d.eval B env paint) (s.eval B env paint)

/-- Machine state of the raster pipeline for one pixel: the current registers
r,g,b,a (`cur`), the secondary registers dr,dg,db,da (`dr`), and the scratch
memory indexed by arena slot. -/
structure PipeState where
  cur : RGBA
  dr : RGBA
  mem : Nat → RGBA

/-- Execution of one stage. -/
def Stage.run (B : SkBlendMode → RGBA → RGBA → RGBA) (env : Nat → RGBA)
    (st : PipeState) : Stage → PipeState
  | .constant_color c => { st with cur := c }
  | .shader_stages id => { st with cur := env id }
  | .color_stage c => { st with cur := premulColor c }
  | .store_src p => { st with mem := Function.update st.mem p st.cur }
  | .load_dst p => { st with dr := st.mem p }
  | .blend_stages m => { st with cur := B m st.dr st.cur }
  | .lerp_1_float w => { st with cur := lerpColor w.toQ st.dr st.cur }

/-- Execution of a stage list, in append order. -/
def runStages (B : SkBlendMode → RGBA → RGBA → RGBA) (env : Nat → RGBA) :
    List Stage → PipeState → PipeState
  | [], st => st
  | s :: rest, st => runStages B env rest (Stage.run B env st s)

/-- Specification of one stage-append call used in the correctness induction:
the arena counter never decreases, scratch slots below the incoming counter
are never written (whether or not the append succeeds), and on success running
the appended stages from any state leaves the shader's denotational output in
the current registers. -/
def AppendSpec (B : SkBlendMode → RGBA → RGBA → RGBA) (env : Nat → RGBA)
    (ok : Nat → Bool) (paint : RGBA) (sh : Shader) : Prop :=
  ∀ a : Nat,
    a ≤ (append_shader_or_paint ok paint sh a).alloc
    ∧ (∀ ps : PipeState, ∀ p : Nat, p < a →
        (runStages B env (append_shader_or_paint ok paint sh a).stages ps).mem p = ps.mem p)
    ∧ ((append_shader_or_paint ok paint sh a).success = true →
        ∀ ps : PipeState,
          (runStages B env (append_shader_or_paint ok paint sh a).stages ps).cur
            = sh.eval B env paint)

/-- One token of the binary stream (modelled from the spec: SkReadBuffer /
SkWriteBuffer are external): a polymorphically tagged recursively encoded
(possibly null) shader, a 32-bit word, or a scalar. -/
inductive BTok where
  | shader (s : Shader)
  | u32 (n : Nat)
  | scalar (x : SkScalar)
deriving DecidableEq

/-- SkReadBuffer, modelled from the spec: the remaining token stream and the
validity flag. -/
structure SkReadBuffer where
  toks : List BTok
  valid : Bool
deriving DecidableEq

/-- readShader: pop a shader token; a type mismatch or exhausted stream trips
the validity flag and yields the null shader. -/
def SkReadBuffer.readShader : SkReadBuffer → Shader × SkReadBuffer
  | ⟨.shader s :: rest, v⟩ => (s, ⟨rest, v⟩)
  | ⟨toks, _⟩ => (.null, ⟨toks, false⟩)

/-- read32: pop a 32-bit word token; mismatch trips the validity flag. -/
def SkReadBuffer.read32 : SkReadBuffer → Nat × SkReadBuffer
  | ⟨.u32 n :: rest, v⟩ => (n, ⟨rest, v⟩)
  | ⟨toks, _⟩ => (0, ⟨toks, false⟩)

/-- readScalar: pop a scalar token; mismatch trips the validity flag. -/
def SkReadBuffer.readScalar : SkReadBuffer → SkScalar × SkReadBuffer
  | ⟨.scalar x :: rest, v⟩ => (x, ⟨rest, v⟩)
  | ⟨toks, _⟩ => (SkScalar.val 0, ⟨toks, false⟩)

/-- isValid. -/
def SkReadBuffer.isValid (b : SkReadBuffer) : Bool := b.valid

/-- validate(cond): a false condition trips the validity flag; the returned
Bool is the stream's validity after the check, so it is also false when the
stream was already invalid. -/
def SkReadBuffer.validate (b : SkReadBuffer) (cond : Bool) : Bool × SkReadBuffer :=
  let b' : SkReadBuffer := if cond then b else ⟨b.toks, false⟩
  (b'.valid, b')

/-- SkShader_Blend::flatten from the source: destination, then source, then
`write32((int)fMode)`. -/
def SkShader_Blend.flatten (mode : SkBlendMode) (dst src : Shader) : List BTok :=
  [.shader dst, .shader src, .u32 mode.toNat]

/-- SkShader_Lerp::flatten from the source: destination, then source, then
`writeScalar(fWeight)`. -/
def SkShader_Lerp.flatten (w : SkScalar) (dst src : Shader) : List BTok :=
  [.shader dst, .shader src, .scalar w]

/-- SkShader_Blend::CreateProc from the source: read both children and the
mode word, validate `mode <= kLastMode` before casting, return null on a
failed validation, and otherwise re-invoke the MakeBlend factory. -/
def SkShader_Blend.CreateProc (buffer : SkReadBuffer) : Shader × SkReadBuffer :=
  let (dst, buffer) := buffer.readShader
  let (src, buffer) := buffer.readShader
  let (mode, buffer) := buffer.read32
  let (okv, buffer) := buffer.validate (decide (mode ≤ SkBlendMode.kLastMode.toNat))
  if !okv then (.null, buffer)
  else (SkShader.MakeBlend (SkBlendMode.fromNat mode) dst src, buffer)

/-- SkShader_Lerp::CreateProc from the source: read both children and the
weight, then re-invoke the MakeLerp factory only if the stream is still
valid. -/
def SkShader_Lerp.CreateProc (buffer : SkReadBuffer) : Shader × SkReadBuffer :=
  let (dst, buffer) := buffer.readShader
  let (src, buffer) := buffer.readShader
  let (t, buffer) := buffer.readScalar
  if buffer.isValid then (SkShader.MakeLerp t dst src, buffer)
  else (.null, buffer)

/-- A GPU fragment-computation node: an external leaf node, the constant-color
node of an SkColorShader, or the backend two-processor blend combinator
`GrXfermodeFragmentProcessor::MakeFromTwoProcessors(src, dst, mode)`. -/
inductive GrFragmentProcessor where
  | external (id : Nat)
  | constColor (c : Nat)
  | xfermode (src dst : GrFragmentProcessor) (mode : SkBlendMode)
deriving DecidableEq

/-- The `asFragmentProcessor` dispatch.  `fp` gives each external leaf
shader's fragment node (or `none` when unsupported); a null child has no
fragment node.  The `blend` arm is `SkShader_Blend::asFragmentProcessor` from
the source (children first, then the backend combinator with the source node
as first argument); the `lerp` arm is `SkShader_Lerp::asFragmentProcessor`
from the source, which requests both children's nodes and then returns null
(`return nullptr; // todo`). -/
def Shader.asFragmentProcessor (fp : Nat → Option GrFragmentProcessor) :
    Shader → Option GrFragmentProcessor
  | .null => none
  | .color c => some (.constColor c)
  | .leaf id => fp id
  | .blend m d s =>
      match d.asFragmentProcessor fp with
      | none => none
      | some fpA =>
          match s.asFragmentProcessor fp with
          | none => none
          | some fpB => some (.xfermode fpB fpA m)
  | .lerp _ d s =>
      match d.asFragmentProcessor fp with
      | none => none
      | some _ =>
          match s.asFragmentProcessor fp with
          | none => none
          | some _ => none

/-- The construction invariants of §3 of the spec, for every combinator
reachable inside a shader: a Blend node never stores kClear/kDst/kSrc, a Lerp
node stores a finite weight strictly between 0 and 1 and two children that
are not the identical object. -/
def Shader.wf : Shader → Bool
  | .null => true
  | .color _ => true
  | .leaf _ => true
  | .blend m d s =>
      decide (m ≠ .kClear) && decide (m ≠ .kDst) && decide (m ≠ .kSrc) && d.wf && s.wf
  | .lerp w d s =>
      (match w with
       | .val q => decide (0 < q) && decide (q < 1)
       | _ => false)
      && decide (d ≠ s) && d.wf && s.wf

/-! Helper lemmas about the scalar comparisons and the factories. -/

/-- A weight satisfying the IEEE test `w >= 1` is neither NaN nor `<= 0`. -/
theorem SkScalar.ge1_not_le0 (w : SkScalar) (h : w.ge1 = true) :
    w.le0 = false ∧ w.isNaN = false := by
  cases w with
  | nan => simp_all [SkScalar.ge1]
  | posInf => simp [SkScalar.le0, SkScalar.isNaN]
  | negInf => simp_all [SkScalar.ge1]
  | val q =>
      simp_all [SkScalar.ge1, SkScalar.le0, SkScalar.isNaN]
      linarith

/-- MakeBlend on a mode other than the three short-circuited ones allocates a
Blend combinator. -/
theorem MakeBlend_default (m : SkBlendMode) (d s : Shader)
    (h1 : m ≠ .kClear) (h2 : m ≠ .kDst) (h3 : m ≠ .kSrc) :
    SkShader.MakeBlend m d s = .blend m d s := by
  cases m <;> simp_all [SkShader.MakeBlend]

/-- MakeLerp with distinct children and a finite weight strictly inside (0,1)
allocates a Lerp combinator. -/
theorem MakeLerp_mid (w : SkScalar) (d s : Shader) (hne : d ≠ s)
    (h1 : w.isNaN = false) (h2 : w.le0 = false) (h3 : w.ge1 = false) :
    SkShader.MakeLerp w d s = .lerp w d s := by
  simp [SkShader.MakeLerp, h1, h2, h3, hne]

/-- Round trip of the blend-mode enumeration through its numeric value. -/
theorem SkBlendMode.fromNat_toNat (m : SkBlendMode) :
    SkBlendMode.fromNat m.toNat = m := by
  cases m <;> rfl

/-- Every blend mode's numeric value is at most kLastMode's. -/
theorem SkBlendMode.toNat_le_28 (m : SkBlendMode) : m.toNat ≤ 28 := by
  cases m <;> simp [SkBlendMode.toNat]

/-- The color shader produced for the clear mode outputs transparent black. -/
theorem premulColor_zero : premulColor 0 = RGBA.transparentBlack := by
  simp [premulColor, RGBA.transparentBlack]

/-- C1, counterexample: a non-NaN weight with both children null makes
MakeLerp return the null (absent) result, refuting "absent only on NaN". -/
theorem C1_counterexample :
    SkShader.MakeLerp (SkScalar.val (1/2)) Shader.null Shader.null = Shader.null
    ∧ (SkScalar.val (1/2)).isNaN = false :=
  ⟨rfl, rfl⟩

/-- C1 (amended): MakeLerp returns the absent (null) result if the weight is
NaN; for a non-NaN weight the result is absent exactly when the child selected
by the simplification rules is itself null, and in particular it is never
absent when both children are present. -/
theorem C1_MakeLerp_absent (w : SkScalar) (d s : Shader) :
    (w.isNaN = true → SkShader.MakeLerp w d s = Shader.null)
    ∧ (SkShader.MakeLerp w d s = Shader.null
        ↔ (w.isNaN = true
           ∨ (w.isNaN = false ∧ d = s ∧ d = Shader.null)
           ∨ (w.isNaN = false ∧ d ≠ s ∧ w.le0 = true ∧ d = Shader.null)
           ∨ (w.isNaN = false ∧ d ≠ s ∧ w.le0 = false ∧ w.ge1 = true ∧ s = Shader.null)))
    ∧ (w.isNaN = false → d ≠ Shader.null → s ≠ Shader.null →
        SkShader.MakeLerp w d s ≠ Shader.null) := by
  unfold SkShader.MakeLerp
  refine ⟨?_, ?_, ?_⟩
  · intro h; simp [h]
  · split_ifs with h1 h2 h3 h4 <;> simp_all
  · intro h1 hd hs; split_ifs <;> simp_all

/-- C1, witness: at concrete inputs, a NaN weight yields the absent result and
a non-NaN weight with two present children yields a present procedure. -/
theorem C1_witness :
    SkShader.MakeLerp SkScalar.nan (Shader.leaf 0) (Shader.leaf 1) = Shader.null
    ∧ SkShader.MakeLerp (SkScalar.val (1/2)) (Shader.leaf 0) (Shader.leaf 1) ≠ Shader.null :=
  ⟨(C1_MakeLerp_absent SkScalar.nan (Shader.leaf 0) (Shader.leaf 1)).1 rfl,
   (C1_MakeLerp_absent (SkScalar.val (1/2)) (Shader.leaf 0) (Shader.leaf 1)).2.2
     rfl (by decide) (by decide)⟩

/-- C2: MakeBlend never fails and simplifies the trivial operators: kClear
yields the constant transparent-black color shader (ignoring both inputs),
kDst returns exactly the destination argument, kSrc returns exactly the
source argument, and every other operator allocates a Blend combinator
holding the operator and both children. -/
theorem C2_MakeBlend (d s : Shader) (m : SkBlendMode)
    (hm1 : m ≠ .kClear) (hm2 : m ≠ .kDst) (hm3 : m ≠ .kSrc) :
    SkShader.MakeBlend .kClear d s = Shader.color 0
    ∧ (∀ B env paint,
        Shader.eval B env paint (SkShader.MakeBlend .kClear d s) = RGBA.transparentBlack)
    ∧ SkShader.MakeBlend .kDst d s = d
    ∧ SkShader.MakeBlend .kSrc d s = s
    ∧ SkShader.MakeBlend m d s = .blend m d s := by
  refine ⟨rfl, ?_, rfl, rfl, MakeBlend_default m d s hm1 hm2 hm3⟩
  intro B env paint
  simp [SkShader.MakeBlend, Shader.eval, premulColor_zero]

/-- C2, witness: the general arm instantiated at the Xor operator. -/
theorem C2_witness :
    SkShader.MakeBlend .kXor (Shader.leaf 0) (Shader.leaf 1)
      = Shader.blend .kXor (Shader.leaf 0) (Shader.leaf 1) :=
  (C2_MakeBlend (Shader.leaf 0) (Shader.leaf 1) .kXor
    (by decide) (by decide) (by decide)).2.2.2.2

/-- C3: for distinct children, a non-NaN weight `<= 0` makes MakeLerp return
exactly the destination, a weight `>= 1` exactly the source, and a weight
strictly between 0 and 1 allocates a Lerp combinator holding the weight and
both children. -/
theorem C3_MakeLerp_clamp (w : SkScalar) (d s : Shader) (hne : d ≠ s) :
    (w.isNaN = false → w.le0 = true → SkShader.MakeLerp w d s = d)
    ∧ (w.ge1 = true → SkShader.MakeLerp w d s = s)
    ∧ (w.isNaN = false → w.le0 = false → w.ge1 = false →
        SkShader.MakeLerp w d s = .lerp w d s) := by
  refine ⟨?_, ?_, ?_⟩
  · intro h1 h2; simp [SkShader.MakeLerp, h1, h2, hne]
  · intro h
    obtain ⟨h2, h1⟩ := SkScalar.ge1_not_le0 w h
    simp [SkShader.MakeLerp, h1, h2, h, hne]
  · intro h1 h2 h3; exact MakeLerp_mid w d s hne h1 h2 h3

/-- C3, witness: the three arms instantiated at weights -1, 2 and 1/2. -/
theorem C3_witness :
    SkShader.MakeLerp (SkScalar.val (-1)) (Shader.leaf 0) (Shader.leaf 1) = Shader.leaf 0
    ∧ SkShader.MakeLerp (SkScalar.val 2) (Shader.leaf 0) (Shader.leaf 1) = Shader.leaf 1
    ∧ SkShader.MakeLerp (SkScalar.val (1/2)) (Shader.leaf 0) (Shader.leaf 1)
        = Shader.lerp (SkScalar.val (1/2)) (Shader.leaf 0) (Shader.leaf 1) :=
  ⟨(C3_MakeLerp_clamp (SkScalar.val (-1)) (Shader.leaf 0) (Shader.leaf 1) (by decide)).1
      rfl (by decide),
   (C3_MakeLerp_clamp (SkScalar.val 2) (Shader.leaf 0) (Shader.leaf 1) (by decide)).2.1
      (by decide),
   (C3_MakeLerp_clamp (SkScalar.val (1/2)) (Shader.leaf 0) (Shader.leaf 1) (by decide)).2.2
      rfl (by norm_num [SkScalar.le0]) (by norm_num [SkScalar.ge1])⟩

/-- C4: MakeLerp on identical (pointer-equal) children returns that child
unchanged for every finite, non-NaN weight, inside or outside [0,1]. -/
theorem C4_MakeLerp_idempotent (q : ℚ) (A : Shader) :
    SkShader.MakeLerp (SkScalar.val q) A A = A := by
  simp [SkShader.MakeLerp, SkScalar.isNaN]

/-- C10: requesting a GPU fragment-computation node from a Lerp combinator
returns absent for every argument set and every behavior of the children. -/
theorem C10_lerp_no_fragment (fp : Nat → Option GrFragmentProcessor)
    (w : SkScalar) (d s : Shader) :
    Shader.asFragmentProcessor fp (.lerp w d s) = none := by
  cases hd : Shader.asFragmentProcessor fp d
    <;> cases hs : Shader.asFragmentProcessor fp s
    <;> simp [Shader.asFragmentProcessor, hd, hs]

/-- C9: the factories preserve the construction invariants: given well-formed
inputs, every combinator MakeBlend or MakeLerp allocates stores an operator
outside the three short-circuited modes, respectively a finite weight strictly
between 0 and 1 and two non-identical children. -/
theorem C9_invariants (m : SkBlendMode) (w : SkScalar) (d s : Shader)
    (hd : d.wf = true) (hs : s.wf = true) :
    (SkShader.MakeBlend m d s).wf = true
    ∧ (SkShader.MakeLerp w d s).wf = true := by
  constructor
  · cases m <;> simp_all [SkShader.MakeBlend, Shader.wf]
  · unfold SkShader.MakeLerp
    split_ifs with h1 h2 h3 h4
    · rfl
    · exact hd
    · exact hd
    · exact hs
    · cases w with
      | nan => simp [SkScalar.isNaN] at h1
      | posInf => simp [SkScalar.ge1] at h4
      | negInf => simp [SkScalar.le0] at h3
      | val q =>
          simp [SkScalar.le0] at h3
          simp [SkScalar.ge1] at h4
          simp [Shader.wf, hd, hs, h2]
          constructor <;> linarith

/-- C9, witness: the invariants of the two combinators allocated from two
distinct well-formed leaves with the Xor operator and weight 1/2. -/
theorem C9_witness :
    (SkShader.MakeBlend .kXor (Shader.leaf 0) (Shader.leaf 1)).wf = true
    ∧ (SkShader.MakeLerp (SkScalar.val (1/2)) (Shader.leaf 0) (Shader.leaf 1)).wf = true :=
  C9_invariants .kXor (SkScalar.val (1/2)) (Shader.leaf 0) (Shader.leaf 1) rfl rfl

/-- C7: decoding a Blend record whose operator word exceeds kLastMode returns
null with the stream marked invalid and constructs nothing; an in-range
operator word is decoded by re-invoking the MakeBlend factory on the decoded
children, so the simplification rules are re-applied. -/
theorem C7_decode_blend (d s : Shader) (n : Nat) (rest : List BTok) :
    (28 < n →
      SkShader_Blend.CreateProc ⟨.shader d :: .shader s :: .u32 n :: rest, true⟩
        = (Shader.null, ⟨rest, false⟩))
    ∧ (n ≤ 28 →
      SkShader_Blend.CreateProc ⟨.shader d :: .shader s :: .u32 n :: rest, true⟩
        = (SkShader.MakeBlend (SkBlendMode.fromNat n) d s, ⟨rest, true⟩)) := by
  constructor
  · intro h
    have hn : ¬ (n ≤ SkBlendMode.kLastMode.toNat) := by
      simp [SkBlendMode.kLastMode, SkBlendMode.toNat]; omega
    simp [SkShader_Blend.CreateProc, SkReadBuffer.readShader, SkReadBuffer.read32,
          SkReadBuffer.validate, hn]
  · intro h
    have hn : n ≤ SkBlendMode.kLastMode.toNat := by
      simp [SkBlendMode.kLastMode, SkBlendMode.toNat]; omega
    simp [SkShader_Blend.CreateProc, SkReadBuffer.readShader, SkReadBuffer.read32,
          SkReadBuffer.validate, hn]

/-- C7, witness: an out-of-range operator word (100) is rejected with the
stream invalidated, and the in-range word 2 (the destination-only mode)
decodes through the factory back to exactly the destination child. -/
theorem C7_witness :
    SkShader_Blend.CreateProc
        ⟨[.shader (Shader.leaf 5), .shader (Shader.leaf 6), .u32 100], true⟩
      = (Shader.null, ⟨[], false⟩)
    ∧ SkShader_Blend.CreateProc
        ⟨[.shader (Shader.leaf 5), .shader (Shader.leaf 6), .u32 2], true⟩
      = (Shader.leaf 5, ⟨[], true⟩) := by
  constructor
  · exact (C7_decode_blend (Shader.leaf 5) (Shader.leaf 6) 100 []).1 (by omega)
  · have h := (C7_decode_blend (Shader.leaf 5) (Shader.leaf 6) 2 []).2 (by omega)
    simpa [SkBlendMode.fromNat, SkShader.MakeBlend] using h

/-- C8: encoding a (factory-built, hence invariant-satisfying) Blend or Lerp
combinator and decoding the result yields the identical combinator back, and
therefore a procedure with the same per-pixel output for every blend-operator
semantics, every leaf output and every paint color. -/
theorem C8_roundtrip (m : SkBlendMode) (d s : Shader) (q : ℚ) (dl sl : Shader)
    (rest : List BTok)
    (hm1 : m ≠ .kClear) (hm2 : m ≠ .kDst) (hm3 : m ≠ .kSrc)
    (hq0 : 0 < q) (hq1 : q < 1) (hne : dl ≠ sl) :
    SkShader_Blend.CreateProc ⟨SkShader_Blend.flatten m d s ++ rest, true⟩
      = (Shader.blend m d s, ⟨rest, true⟩)
    ∧ (∀ B env paint,
        Shader.eval B env paint
            (SkShader_Blend.CreateProc ⟨SkShader_Blend.flatten m d s ++ rest, true⟩).1
          = Shader.eval B env paint (Shader.blend m d s))
    ∧ SkShader_Lerp.CreateProc ⟨SkShader_Lerp.flatten (SkScalar.val q) dl sl ++ rest, true⟩
      = (Shader.lerp (SkScalar.val q) dl sl, ⟨rest, true⟩)
    ∧ (∀ B env paint,
        Shader.eval B env paint
            (SkShader_Lerp.CreateProc
              ⟨SkShader_Lerp.flatten (SkScalar.val q) dl sl ++ rest, true⟩).1
          = Shader.eval B env paint (Shader.lerp (SkScalar.val q) dl sl)) := by
  have hc : m.toNat ≤ SkBlendMode.kLastMode.toNat := by
    show m.toNat ≤ 28
    exact SkBlendMode.toNat_le_28 m
  have hb : SkShader_Blend.CreateProc ⟨SkShader_Blend.flatten m d s ++ rest, true⟩
      = (Shader.blend m d s, ⟨rest, true⟩) := by
    simp [SkShader_Blend.CreateProc, SkShader_Blend.flatten, SkReadBuffer.readShader,
          SkReadBuffer.read32, SkReadBuffer.validate, hc,
          SkBlendMode.fromNat_toNat, MakeBlend_default m d s hm1 hm2 hm3]
  have hle : (SkScalar.val q).le0 = false := by
    simp [SkScalar.le0]; linarith
  have hge : (SkScalar.val q).ge1 = false := by
    simp [SkScalar.ge1]; linarith
  have hl : SkShader_Lerp.CreateProc
        ⟨SkShader_Lerp.flatten (SkScalar.val q) dl sl ++ rest, true⟩
      = (Shader.lerp (SkScalar.val q) dl sl, ⟨rest, true⟩) := by
    simp [SkShader_Lerp.CreateProc, SkShader_Lerp.flatten, SkReadBuffer.readShader,
          SkReadBuffer.readScalar, SkReadBuffer.isValid,
          MakeLerp_mid (SkScalar.val q) dl sl hne rfl hle hge]
  exact ⟨hb, fun B env paint => by rw [hb], hl, fun B env paint => by rw [hl]⟩

/-- C8, witness: the round trip at a concrete Blend (Xor of a leaf over a null
child) and a concrete Lerp (weight 1/2 over two distinct leaves). -/
theorem C8_witness :
    SkShader_Blend.CreateProc
        ⟨SkShader_Blend.flatten .kXor (Shader.leaf 0) Shader.null ++ [], true⟩
      = (Shader.blend .kXor (Shader.leaf 0) Shader.null, ⟨[], true⟩)
    ∧ SkShader_Lerp.CreateProc
        ⟨SkShader_Lerp.flatten (SkScalar.val (1/2)) (Shader.leaf 2) (Shader.leaf 3) ++ [], true⟩
      = (Shader.lerp (SkScalar.val (1/2)) (Shader.leaf 2) (Shader.leaf 3), ⟨[], true⟩) :=
  ⟨(C8_roundtrip .kXor (Shader.leaf 0) Shader.null (1/2) (Shader.leaf 2) (Shader.leaf 3) []
      (by decide) (by decide) (by decide) (by norm_num) (by norm_num) (by decide)).1,
   (C8_roundtrip .kXor (Shader.leaf 0) Shader.null (1/2) (Shader.leaf 2) (Shader.leaf 3) []
      (by decide) (by decide) (by decide) (by norm_num) (by norm_num) (by decide)).2.2.1⟩

/-! Helper lemmas for the stage-append protocol. -/

/-- Running an empty stage list is the identity. -/
theorem runStages_nil (B : SkBlendMode → RGBA → RGBA → RGBA) (env : Nat → RGBA)
    (ps : PipeState) : runStages B env [] ps = ps := rfl

/-- Running a concatenation runs the two lists in order. -/
theorem runStages_append (B : SkBlendMode → RGBA → RGBA → RGBA) (env : Nat → RGBA)
    (l1 l2 : List Stage) (ps : PipeState) :
    runStages B env (l1 ++ l2) ps = runStages B env l2 (runStages B env l1 ps) := by
  induction l1 generalizing ps with
  | nil => rfl
  | cons st rest ih => simp [runStages, ih]

/-- Unfolding append_shader_or_paint at a null shader. -/
theorem append_shader_or_paint_null (ok : Nat → Bool) (paint : RGBA) (a : Nat) :
    append_shader_or_paint ok paint .null a = ⟨[.constant_color paint], a, true⟩ := by
  simp [append_shader_or_paint]

/-- Unfolding append_shader_or_paint at a present shader: it delegates to the
shader's own appendStages. -/
theorem append_shader_or_paint_ne (ok : Nat → Bool) (paint : RGBA) (sh : Shader)
    (h : sh ≠ .null) (a : Nat) :
    append_shader_or_paint ok paint sh a = Shader.appendStages ok paint sh a := by
  simp [append_shader_or_paint, h]

/-- Unfolding append_two_shaders when the first child's append fails. -/
theorem append_two_shaders_fail0 (ok : Nat → Bool) (paint : RGBA) (d s : Shader) (a : Nat)
    (h : (append_shader_or_paint ok paint d (a + 1)).success = false) :
    append_two_shaders ok paint d s a
      = ⟨(append_shader_or_paint ok paint d (a + 1)).stages,
         (append_shader_or_paint ok paint d (a + 1)).alloc, none⟩ := by
  simp [append_two_shaders, h]

/-- Unfolding append_two_shaders when the first child's append succeeds and
the second child's fails. -/
theorem append_two_shaders_fail1 (ok : Nat → Bool) (paint : RGBA) (d s : Shader) (a : Nat)
    (h0 : (append_shader_or_paint ok paint d (a + 1)).success = true)
    (h1 : (append_shader_or_paint ok paint s
            (append_shader_or_paint ok paint d (a + 1)).alloc).success = false) :
    append_two_shaders ok paint d s a
      = ⟨(append_shader_or_paint ok paint d (a + 1)).stages
           ++ [.store_src a]
           ++ (append_shader_or_paint ok paint s
                (append_shader_or_paint ok paint d (a + 1)).alloc).stages,
         (append_shader_or_paint ok paint s
           (append_shader_or_paint ok paint d (a + 1)).alloc).alloc, none⟩ := by
  simp [append_two_shaders, h0, h1]

/-- Unfolding append_two_shaders when both children's appends succeed. -/
theorem append_two_shaders_ok (ok : Nat → Bool) (paint : RGBA) (d s : Shader) (a : Nat)
    (h0 : (append_shader_or_paint ok paint d (a + 1)).success = true)
    (h1 : (append_shader_or_paint ok paint s
            (append_shader_or_paint ok paint d (a + 1)).alloc).success = true) :
    append_two_shaders ok paint d s a
      = ⟨(append_shader_or_paint ok paint d (a + 1)).stages
           ++ [.store_src a]
           ++ (append_shader_or_paint ok paint s
                (append_shader_or_paint ok paint d (a + 1)).alloc).stages,
         (append_shader_or_paint ok paint s
           (append_shader_or_paint ok paint d (a + 1)).alloc).alloc, some a⟩ := by
  simp [append_two_shaders, h0, h1]

/-- Unfolding the Blend combinator's onAppendStages when the helper failed. -/
theorem appendStages_blend_fail (ok : Nat → Bool) (paint : RGBA) (m : SkBlendMode)
    (d s : Shader) (a : Nat)
    (h : (append_two_shaders ok paint d s a).res0 = none) :
    Shader.appendStages ok paint (.blend m d s) a
      = ⟨(append_two_shaders ok paint d s a).stages,
         (append_two_shaders ok paint d s a).alloc, false⟩ := by
  simp [Shader.appendStages, h]

/-- Unfolding the Blend combinator's onAppendStages when the helper
succeeded: it appends the load of the saved destination output and the
blend-operator stages. -/
theorem appendStages_blend_ok (ok : Nat → Bool) (paint : RGBA) (m : SkBlendMode)
    (d s : Shader) (a p : Nat)
    (h : (append_two_shaders ok paint d s a).res0 = some p) :
    Shader.appendStages ok paint (.blend m d s) a
      = ⟨(append_two_shaders ok paint d s a).stages ++ [.load_dst p, .blend_stages m],
         (append_two_shaders ok paint d s a).alloc, true⟩ := by
  simp [Shader.appendStages, h]

/-- Unfolding the Lerp combinator's onAppendStages when the helper failed. -/
theorem appendStages_lerp_fail (ok : Nat → Bool) (paint : RGBA) (w : SkScalar)
    (d s : Shader) (a : Nat)
    (h : (append_two_shaders ok paint d s a).res0 = none) :
    Shader.appendStages ok paint (.lerp w d s) a
      = ⟨(append_two_shaders ok paint d s a).stages,
         (append_two_shaders ok paint d s a).alloc, false⟩ := by
  simp [Shader.appendStages, h]

/-- Unfolding the Lerp combinator's onAppendStages when the helper succeeded:
it appends the load of the saved destination output and the lerp stage. -/
theorem appendStages_lerp_ok (ok : Nat → Bool) (paint : RGBA) (w : SkScalar)
    (d s : Shader) (a p : Nat)
    (h : (append_two_shaders ok paint d s a).res0 = some p) :
    Shader.appendStages ok paint (.lerp w d s) a
      = ⟨(append_two_shaders ok paint d s a).stages ++ [.load_dst p, .lerp_1_float w],
         (append_two_shaders ok paint d s a).alloc, true⟩ := by
  simp [Shader.appendStages, h]

/-- Specification of append_two_shaders, assuming the specification of its two
children's appends: the arena counter moves past the reserved slot, scratch
slots below the incoming counter are untouched, and on success the returned
handle is the slot reserved on entry, which after running the appended stages
holds the destination child's output while the current registers hold the
source child's output. -/
theorem append_two_shaders_spec (B : SkBlendMode → RGBA → RGBA → RGBA) (env : Nat → RGBA)
    (ok : Nat → Bool) (paint : RGBA) (d s : Shader)
    (hd : AppendSpec B env ok paint d) (hs : AppendSpec B env ok paint s) (a : Nat) :
    a + 1 ≤ (append_two_shaders ok paint d s a).alloc
    ∧ (∀ ps p, p < a →
        (runStages B env (append_two_shaders ok paint d s a).stages ps).mem p = ps.mem p)
    ∧ (∀ p, (append_two_shaders ok paint d s a).res0 = some p → p = a
        ∧ ∀ ps, (runStages B env (append_two_shaders ok paint d s a).stages ps).cur
                  = s.eval B env paint
            ∧ (runStages B env (append_two_shaders ok paint d s a).stages ps).mem p
                  = d.eval B env paint) := by
  obtain ⟨h0a, h0m, h0c⟩ := hd (a + 1)
  obtain ⟨h1a, h1m, h1c⟩ := hs (append_shader_or_paint ok paint d (a + 1)).alloc
  cases h0s : (append_shader_or_paint ok paint d (a + 1)).success with
  | false =>
      rw [append_two_shaders_fail0 ok paint d s a h0s]
      dsimp only
      refine ⟨h0a, ?_, ?_⟩
      · intro ps p hp
        exact h0m ps p (by omega)
      · intro p hp
        exact absurd hp (by simp)
  | true =>
      cases h1s : (append_shader_or_paint ok paint s
          (append_shader_or_paint ok paint d (a + 1)).alloc).success with
      | false =>
          rw [append_two_shaders_fail1 ok paint d s a h0s h1s]
          dsimp only
          refine ⟨le_trans h0a h1a, ?_, ?_⟩
          · intro ps p hp
            rw [runStages_append, runStages_append]
            have e0 := h0m ps p (by omega)
            have hlt : p < (append_shader_or_paint ok paint d (a + 1)).alloc :=
              lt_of_lt_of_le (by omega) h0a
            rw [h1m _ p hlt]
            simp only [runStages, Stage.run]
            rw [Function.update_noteq (by omega)]
            exact e0
          · intro p hp
            exact absurd hp (by simp)
      | true =>
          rw [append_two_shaders_ok ok paint d s a h0s h1s]
          dsimp only
          refine ⟨le_trans h0a h1a, ?_, ?_⟩
          · intro ps p hp
            rw [runStages_append, runStages_append]
            have e0 := h0m ps p (by omega)
            have hlt : p < (append_shader_or_paint ok paint d (a + 1)).alloc :=
              lt_of_lt_of_le (by omega) h0a
            rw [h1m _ p hlt]
            simp only [runStages, Stage.run]
            rw [Function.update_noteq (by omega)]
            exact e0
          · intro p hp
            have hpa : p = a := by
              simpa using hp.symm
            refine ⟨hpa, ?_⟩
            intro ps
            rw [runStages_append, runStages_append]
            have hlt : p < (append_shader_or_paint ok paint d (a + 1)).alloc :=
              lt_of_lt_of_le (by omega) h0a
            constructor
            · exact h1c h1s _
            · rw [h1m _ p hlt]
              simp only [runStages, Stage.run]
              rw [hpa, Function.update_same]
              exact h0c h0s ps

/-- Specification of every shader's stage-append, by structural induction:
the arena counter never decreases, scratch slots below the incoming counter
are never written, and on success the appended stages leave the shader's
denotational output in the current registers. -/
theorem appendStages_spec (B : SkBlendMode → RGBA → RGBA → RGBA) (env : Nat → RGBA)
    (ok : Nat → Bool) (paint : RGBA) (sh : Shader) : AppendSpec B env ok paint sh := by
  induction sh with
  | null =>
      intro a
      rw [append_shader_or_paint_null]
      dsimp only
      refine ⟨le_refl a, ?_, ?_⟩
      · intro ps p _
        simp [runStages, Stage.run]
      · intro _ ps
        simp [runStages, Stage.run, Shader.eval]
  | color c =>
      intro a
      rw [append_shader_or_paint_ne ok paint _ (by simp) a]
      rw [show Shader.appendStages ok paint (.color c) a = ⟨[.color_stage c], a, true⟩
        from by simp [Shader.appendStages]]
      dsimp only
      refine ⟨le_refl a, ?_, ?_⟩
      · intro ps p _
        simp [runStages, Stage.run]
      · intro _ ps
        simp [runStages, Stage.run, Shader.eval]
  | leaf id =>
      intro a
      rw [append_shader_or_paint_ne ok paint _ (by simp) a]
      cases hok : ok id with
      | true =>
          rw [show Shader.appendStages ok paint (.leaf id) a = ⟨[.shader_stages id], a, true⟩
            from by simp [Shader.appendStages, hok]]
          dsimp only
          refine ⟨le_refl a, ?_, ?_⟩
          · intro ps p _
            simp [runStages, Stage.run]
          · intro _ ps
            simp [runStages, Stage.run, Shader.eval]
      | false =>
          rw [show Shader.appendStages ok paint (.leaf id) a = ⟨[], a, false⟩
            from by simp [Shader.appendStages, hok]]
          dsimp only
          refine ⟨le_refl a, ?_, ?_⟩
          · intro ps p _
            simp [runStages]
          · intro h
            exact absurd h (by simp)
  | blend m d s ihd ihs =>
      intro a
      rw [append_shader_or_paint_ne ok paint _ (by simp) a]
      obtain ⟨h2a, h2m, h2r⟩ := append_two_shaders_spec B env ok paint d s ihd ihs a
      cases hr : (append_two_shaders ok paint d s a).res0 with
      | none =>
          rw [appendStages_blend_fail ok paint m d s a hr]
          dsimp only
          refine ⟨by omega, h2m, ?_⟩
          intro h
          exact absurd h (by simp)
      | some p =>
          rw [appendStages_blend_ok ok paint m d s a p hr]
          dsimp only
          obtain ⟨hpa, hrun⟩ := h2r p hr
          refine ⟨by omega, ?_, ?_⟩
          · intro ps pp hpp
            rw [runStages_append]
            simp only [runStages, Stage.run]
            exact h2m ps pp hpp
          · intro _ ps
            obtain ⟨hcur, hmem⟩ := hrun ps
            rw [runStages_append]
            simp only [runStages, Stage.run, Shader.eval]
            rw [hmem, hcur]
  | lerp w d s ihd ihs =>
      intro a
      rw [append_shader_or_paint_ne ok paint _ (by simp) a]
      obtain ⟨h2a, h2m, h2r⟩ := append_two_shaders_spec B env ok paint d s ihd ihs a
      cases hr : (append_two_shaders ok paint d s a).res0 with
      | none =>
          rw [appendStages_lerp_fail ok paint w d s a hr]
          dsimp only
          refine ⟨by omega, h2m, ?_⟩
          intro h
          exact absurd h (by simp)
      | some p =>
          rw [appendStages_lerp_ok ok paint w d s a p hr]
          dsimp only
          obtain ⟨hpa, hrun⟩ := h2r p hr
          refine ⟨by omega, ?_, ?_⟩
          · intro ps pp hpp
            rw [runStages_append]
            simp only [runStages, Stage.run]
            exact h2m ps pp hpp
          · intro _ ps
            obtain ⟨hcur, hmem⟩ := hrun ps
            rw [runStages_append]
            simp only [runStages, Stage.run, Shader.eval]
            rw [hmem, hcur]

/-- C5: the two-shader evaluation helper appends the destination child's
stages, then the store-to-scratch stage, then the source child's stages, in
that order; it fails exactly when the destination child's append fails or,
the destination having succeeded, the source child's append fails; and on
success the returned handle is the reserved scratch slot, which after running
the appended stages holds the destination's output while the pipeline's
current value is the source's output. -/
theorem C5_append_two_shaders (B : SkBlendMode → RGBA → RGBA → RGBA) (env : Nat → RGBA)
    (ok : Nat → Bool) (paint : RGBA) (d s : Shader) (a : Nat) :
    ((append_two_shaders ok paint d s a).res0 = none
      ↔ ((append_shader_or_paint ok paint d (a + 1)).success = false
         ∨ ((append_shader_or_paint ok paint d (a + 1)).success = true
            ∧ (append_shader_or_paint ok paint s
                 (append_shader_or_paint ok paint d (a + 1)).alloc).success = false)))
    ∧ (∀ p, (append_two_shaders ok paint d s a).res0 = some p →
        p = a
        ∧ (append_two_shaders ok paint d s a).stages
            = (append_shader_or_paint ok paint d (a + 1)).stages
              ++ [Stage.store_src a]
              ++ (append_shader_or_paint ok paint s
                   (append_shader_or_paint ok paint d (a + 1)).alloc).stages
        ∧ ∀ ps, (runStages B env (append_two_shaders ok paint d s a).stages ps).mem p
                  = Shader.eval B env paint d
            ∧ (runStages B env (append_two_shaders ok paint d s a).stages ps).cur
                  = Shader.eval B env paint s) := by
  have hspec := append_two_shaders_spec B env ok paint d s
    (appendStages_spec B env ok paint d) (appendStages_spec B env ok paint s) a
  constructor
  · cases h0s : (append_shader_or_paint ok paint d (a + 1)).success with
    | false =>
        rw [append_two_shaders_fail0 ok paint d s a h0s]
        simp
    | true =>
        cases h1s : (append_shader_or_paint ok paint s
            (append_shader_or_paint ok paint d (a + 1)).alloc).success with
        | false =>
            rw [append_two_shaders_fail1 ok paint d s a h0s h1s]
            simp
        | true =>
            rw [append_two_shaders_ok ok paint d s a h0s h1s]
            simp
  · intro p hp
    obtain ⟨hpa, hrun⟩ := hspec.2.2 p hp
    refine ⟨hpa, ?_, ?_⟩
    · cases h0s : (append_shader_or_paint ok paint d (a + 1)).success with
      | false =>
          rw [append_two_shaders_fail0 ok paint d s a h0s] at hp
          simp at hp
      | true =>
          cases h1s : (append_shader_or_paint ok paint s
              (append_shader_or_paint ok paint d (a + 1)).alloc).success with
          | false =>
              rw [append_two_shaders_fail1 ok paint d s a h0s h1s] at hp
              simp at hp
          | true =>
              rw [append_two_shaders_ok ok paint d s a h0s h1s]
    · intro ps
      exact ⟨(hrun ps).2, (hrun ps).1⟩

/-- C5, witness: appending a leaf destination and a null source from a fresh
arena returns scratch handle 0; running the three appended stages stores the
leaf's output in slot 0 and leaves the paint color (the null source's output)
in the current registers. -/
theorem C5_witness :
    (append_two_shaders (fun _ => true) ⟨1, 0, 0, 1⟩ (.leaf 0) .null 0).res0 = some 0
    ∧ (runStages (fun _ x _ => x) (fun i => ⟨(i : ℚ), 1, 1, 1⟩)
        (append_two_shaders (fun _ => true) ⟨1, 0, 0, 1⟩ (.leaf 0) .null 0).stages
        ⟨⟨0, 0, 0, 0⟩, ⟨0, 0, 0, 0⟩, fun _ => ⟨5, 5, 5, 5⟩⟩).mem 0 = ⟨0, 1, 1, 1⟩
    ∧ (runStages (fun _ x _ => x) (fun i => ⟨(i : ℚ), 1, 1, 1⟩)
        (append_two_shaders (fun _ => true) ⟨1, 0, 0, 1⟩ (.leaf 0) .null 0).stages
        ⟨⟨0, 0, 0, 0⟩, ⟨0, 0, 0, 0⟩, fun _ => ⟨5, 5, 5, 5⟩⟩).cur = ⟨1, 0, 0, 1⟩ := by
  have hres0 : (append_two_shaders (fun _ => true) ⟨1, 0, 0, 1⟩ (.leaf 0) .null 0).res0
      = some 0 := by
    simp [append_two_shaders, append_shader_or_paint, Shader.appendStages]
  have h := (C5_append_two_shaders (fun _ x _ => x) (fun i => ⟨(i : ℚ), 1, 1, 1⟩)
    (fun _ => true) ⟨1, 0, 0, 1⟩ (.leaf 0) .null 0).2 0 hres0
  obtain ⟨-, -, hrun⟩ := h
  have hr := hrun ⟨⟨0, 0, 0, 0⟩, ⟨0, 0, 0, 0⟩, fun _ => ⟨5, 5, 5, 5⟩⟩
  refine ⟨hres0, ?_, ?_⟩
  · have := hr.1
    simpa [Shader.eval] using this
  · have := hr.2
    simpa [Shader.eval] using this

/-- C6: for both combinators' onAppendStages the only failure path is a
failed two-shader helper: the combinator succeeds exactly when the helper
returned a handle; on helper failure the combinator appends nothing of its
own (its appended stages are exactly the helper's, with no load-saved-output
stage and no merge stage); on helper success it appends exactly the
load-saved-output stage and the merge stage and reports success. -/
theorem C6_combinator_append (ok : Nat → Bool) (paint : RGBA) (m : SkBlendMode)
    (w : SkScalar) (d s : Shader) (a : Nat) :
    ((Shader.appendStages ok paint (.blend m d s) a).success = true
      ↔ (append_two_shaders ok paint d s a).res0.isSome = true)
    ∧ ((Shader.appendStages ok paint (.lerp w d s) a).success = true
      ↔ (append_two_shaders ok paint d s a).res0.isSome = true)
    ∧ ((append_two_shaders ok paint d s a).res0 = none →
        (Shader.appendStages ok paint (.blend m d s) a).stages
          = (append_two_shaders ok paint d s a).stages
        ∧ (Shader.appendStages ok paint (.lerp w d s) a).stages
          = (append_two_shaders ok paint d s a).stages)
    ∧ (∀ p, (append_two_shaders ok paint d s a).res0 = some p →
        (Shader.appendStages ok paint (.blend m d s) a).stages
          = (append_two_shaders ok paint d s a).stages
            ++ [Stage.load_dst p, Stage.blend_stages m]
        ∧ (Shader.appendStages ok paint (.lerp w d s) a).stages
          = (append_two_shaders ok paint d s a).stages
            ++ [Stage.load_dst p, Stage.lerp_1_float w]) := by
  cases hr : (append_two_shaders ok paint d s a).res0 with
  | none =>
      rw [appendStages_blend_fail ok paint m d s a hr,
          appendStages_lerp_fail ok paint w d s a hr]
      simp [hr]
  | some p =>
      rw [appendStages_blend_ok ok paint m d s a p hr,
          appendStages_lerp_ok ok paint w d s a p hr]
      simp [hr]

/-- C6, witness: a Blend combinator whose source child (leaf 1) fails to
append reports failure and its appended stages are exactly the helper's two
stages, containing no load-saved-output stage and no blend stage. -/
theorem C6_witness :
    (Shader.appendStages (fun i => decide (i = 0)) ⟨1, 1, 1, 1⟩
        (.blend .kSrcOver (.leaf 0) (.leaf 1)) 0).success = false
    ∧ (Shader.appendStages (fun i => decide (i = 0)) ⟨1, 1, 1, 1⟩
        (.blend .kSrcOver (.leaf 0) (.leaf 1)) 0).stages
        = [Stage.shader_stages 0, Stage.store_src 0]
    ∧ Stage.blend_stages .kSrcOver ∉
        (Shader.appendStages (fun i => decide (i = 0)) ⟨1, 1, 1, 1⟩
          (.blend .kSrcOver (.leaf 0) (.leaf 1)) 0).stages
    ∧ Stage.load_dst 0 ∉
        (Shader.appendStages (fun i => decide (i = 0)) ⟨1, 1, 1, 1⟩
          (.blend .kSrcOver (.leaf 0) (.leaf 1)) 0).stages := by
  have hres : append_two_shaders (fun i => decide (i = 0)) ⟨1, 1, 1, 1⟩ (.leaf 0) (.leaf 1) 0
      = ⟨[Stage.shader_stages 0, Stage.store_src 0], 1, none⟩ := by
    simp [append_two_shaders, append_shader_or_paint, Shader.appendStages]
  have hnone : (append_two_shaders (fun i => decide (i = 0)) ⟨1, 1, 1, 1⟩
      (.leaf 0) (.leaf 1) 0).res0 = none := by
    rw [hres]
  have h := C6_combinator_append (fun i => decide (i = 0)) ⟨1, 1, 1, 1⟩ .kSrcOver
    (SkScalar.val 1) (.leaf 0) (.leaf 1) 0
  have hstages : (Shader.appendStages (fun i => decide (i = 0)) ⟨1, 1, 1, 1⟩
      (.blend .kSrcOver (.leaf 0) (.leaf 1)) 0).stages
      = [Stage.shader_stages 0, Stage.store_src 0] := by
    rw [(h.2.2.1 hnone).1, hres]
  have hsucc : (Shader.appendStages (fun i => decide (i = 0)) ⟨1, 1, 1, 1⟩
      (.blend .kSrcOver (.leaf 0) (.leaf 1)) 0).success = false := by
    have h1 := h.1
    rw [hnone] at h1
    simpa using h1
  refine ⟨hsucc, hstages, ?_, ?_⟩
  · rw [hstages]
    decide
  · rw [hstages]
    decide
